import Mathlib

/-!
Verification development for the gamecrafter remote-gaming-server:
shallow embedding of the outcome engine (gamemath), the scratch game,
the instant-settlement results ledger, and the crash round store with
its HTTP handlers, together with proofs of the specified properties.

Monetary amounts (Go float64) are modelled as rationals; machine
integers (Go int / int64) as Lean integers; the CSPRNG draws are passed
in as explicit oracle arguments (a draw in [0, total) for the tier
picker, symbol indices in Fin 4 for the scratch display).
-/

namespace RGS

/-! ## gamemath: data model (src/gamemath, GameMath / PrizeTier) -/

/-- One payout bucket of a prize table (Go `gamemath.PrizeTier`). -/
structure PrizeTier where
  Tier : String
  Multiplier : ℚ
  Weight : ℤ
deriving DecidableEq, Repr

/-- Optional audit statistics (Go `gamemath.GameStats`). -/
structure GameStats where
  ComputedRTP : ℚ
  HitRate : ℚ
  Variance : ℚ
deriving DecidableEq, Repr

/-- Mechanic descriptor (Go `gamemath.Mechanic`). -/
structure Mechanic where
  MechType : String
  MatchCount : ℤ
deriving DecidableEq, Repr

/-- The stored game math payload (Go `gamemath.GameMath`). -/
structure GameMath where
  SchemaVersion : ℤ
  ModelID : String
  ModelVersion : String
  MechanicField : Mechanic
  MathMode : String
  WinLogic : String
  PrizeTable : List PrizeTier
  Stats : Option GameStats
deriving DecidableEq, Repr

/-- Sum of the positive weights of the prize table: the Go loop
`for _, t := range g.PrizeTable { if t.Weight <= 0 { continue }; total += t.Weight }`. -/
def totalPosWeight (g : GameMath) : ℤ :=
  g.PrizeTable.foldl (fun acc t => if t.Weight ≤ 0 then acc else acc + t.Weight) 0

/-- The selection walk of `GameMath.PickTier`: skip non-positive weights,
accumulate `cum`, return the first tier whose cumulative range contains `idx`.
`none` means the walk fell through (the Go code then returns the last table
entry as a fallback). -/
def pickLoop (idx : ℤ) : ℤ → List PrizeTier → Option PrizeTier
  | _, [] => none
  | cum, t :: rest =>
    if t.Weight ≤ 0 then pickLoop idx cum rest
    else if idx < cum + t.Weight then some t
    else pickLoop idx (cum + t.Weight) rest

/-- Go `(g *GameMath) PickTier()` with the CSPRNG draw `idx` (the value of
`rand.Int(rand.Reader, total)`, always in `[0, total)`) passed explicitly.
Returns `none` exactly where the Go code returns `ok = false` for a non-nil
receiver: empty table, or total positive weight ≤ 0. -/
def GameMath.PickTier (g : GameMath) (idx : ℤ) : Option PrizeTier :=
  if g.PrizeTable = [] then none
  else if totalPosWeight g ≤ 0 then none
  else
    match pickLoop idx 0 g.PrizeTable with
    | some t => some t
    | none => g.PrizeTable.getLast?

/-- `PickTier` on a possibly-nil receiver (Go `var g *GameMath`): a nil
pointer yields `ok = false` immediately. -/
def pickTierOpt (g : Option GameMath) (idx : ℤ) : Option PrizeTier :=
  match g with
  | none => none
  | some g => g.PickTier idx

theorem pickLoop_mem_pos {idx cum : ℤ} {l : List PrizeTier} {t : PrizeTier}
    (h : pickLoop idx cum l = some t) : t ∈ l ∧ 0 < t.Weight := by
  induction l generalizing cum with
  | nil => simp [pickLoop] at h
  | cons hd tl ih =>
    by_cases hw : hd.Weight ≤ 0
    · simp only [pickLoop, if_pos hw] at h
      rcases ih h with ⟨hmem, hpos⟩
      exact ⟨List.mem_cons_of_mem _ hmem, hpos⟩
    · simp only [pickLoop, if_neg hw] at h
      by_cases hlt : idx < cum + hd.Weight
      · rw [if_pos hlt] at h
        cases h
        exact ⟨List.mem_cons_self _ _, lt_of_not_le hw⟩
      · rw [if_neg hlt] at h
        rcases ih h with ⟨hmem, hpos⟩
        exact ⟨List.mem_cons_of_mem _ hmem, hpos⟩

/-- Shifting the accumulator out of the positive-weight fold. -/
theorem foldl_weight_shift (l : List PrizeTier) (acc : ℤ) :
    l.foldl (fun a t => if t.Weight ≤ 0 then a else a + t.Weight) acc
      = acc + l.foldl (fun a t => if t.Weight ≤ 0 then a else a + t.Weight) 0 := by
  induction l generalizing acc with
  | nil => simp
  | cons hd tl ih =>
    simp only [List.foldl]
    by_cases hw : hd.Weight ≤ 0
    · rw [if_pos hw, if_pos hw, ih acc]
    · rw [if_neg hw, if_neg hw, ih (acc + hd.Weight), ih (0 + hd.Weight)]
      ring

/-- Partial sums: `pickLoop` succeeds whenever the drawn value is below the
cumulative positive weight, so the Go fallback line is unreachable for a
valid draw. -/
theorem pickLoop_isSome {idx cum : ℤ} {l : List PrizeTier} (hc : cum ≤ idx)
    (h : idx < cum + (l.foldl (fun acc t => if t.Weight ≤ 0 then acc else acc + t.Weight) 0)) :
    (pickLoop idx cum l).isSome := by
  induction l generalizing cum with
  | nil => simp [List.foldl] at h; omega
  | cons hd tl ih =>
    by_cases hw : hd.Weight ≤ 0
    · simp only [pickLoop, if_pos hw]
      apply ih hc
      have hstep : (hd :: tl).foldl (fun a t => if t.Weight ≤ 0 then a else a + t.Weight) 0
          = tl.foldl (fun a t => if t.Weight ≤ 0 then a else a + t.Weight) 0 := by
        simp [List.foldl, if_pos hw]
      rw [hstep] at h
      exact h
    · simp only [pickLoop, if_neg hw]
      by_cases hlt : idx < cum + hd.Weight
      · simp [if_pos hlt]
      · rw [if_neg hlt]
        apply ih (by omega)
        have hstep : (hd :: tl).foldl (fun a t => if t.Weight ≤ 0 then a else a + t.Weight) 0
            = hd.Weight + tl.foldl (fun a t => if t.Weight ≤ 0 then a else a + t.Weight) 0 := by
          simp only [List.foldl]
          rw [if_neg hw, foldl_weight_shift tl (0 + hd.Weight)]
          ring
        rw [hstep] at h
        omega

/-! ## games/scratch: legacy generator and math-driven generator -/

/-- The four scratch symbols, in the order of the Go `symbols` slice. -/
def symbols : List String := ["cherry", "lemon", "star", "seven"]

/-- `symbols[secureIntn(len(symbols))]` with the CSPRNG index passed in. -/
def symAt (i : Fin 4) : String := symbols.get ⟨i, by cases i with | mk v h => simpa [symbols] using h⟩

/-- Result of a scratch round (Go `scratch.Outcome`); the three symbols are
kept as an explicit triple mirroring the Go `[3]string`. -/
structure Outcome where
  Symbols : String × String × String
  WinAmount : ℚ
  Match : Bool
  Tier : String
deriving DecidableEq, Repr

/-- Legacy multiplier when 3 symbols match (Go `scratch.WinMultiplier`). -/
def WinMultiplier : ℚ := 2

/-- Go `scratch.Generate`: three independent uniform symbols, win = 2 × bet
on a full match. The three CSPRNG indices are passed in. -/
def Generate (betAmount : ℚ) (d0 d1 d2 : Fin 4) : Outcome :=
  let s0 := symAt d0
  let s1 := symAt d1
  let s2 := symAt d2
  let m := s0 = s1 ∧ s1 = s2
  { Symbols := (s0, s1, s2)
    WinAmount := if m then betAmount * WinMultiplier else 0
    Match := decide m
    Tier := "" }

/-- The re-roll loop of the losing display branch of `GenerateWithMath`:
`for s[0] == s[1] && s[1] == s[2] { s[2] = symbols[secureIntn(...)] }`,
with the stream of re-draws passed as a list. `none` models the (probability
zero) case that the supplied stream runs out before the loop exits. -/
def fixThird (s0 s1 s2 : String) : List (Fin 4) → Option String
  | [] => if s0 = s1 ∧ s1 = s2 then none else some s2
  | d :: rest => if s0 = s1 ∧ s1 = s2 then fixThird s0 s1 (symAt d) rest else some s2

/-- Oracle of CSPRNG draws consumed by one scratch outcome generation. -/
structure ScratchDraws where
  tierIdx : ℤ
  d0 : Fin 4
  d1 : Fin 4
  d2 : Fin 4
  reroll : List (Fin 4)
  wsym : Fin 4
deriving DecidableEq, Repr

/-- Display rendering of `GenerateWithMath` once the tier is drawn: losing
tiers (label "LOSE" or multiplier 0) render three symbols that are re-rolled
until they are not all equal; winning tiers render one symbol three times. -/
def renderTier (betAmount : ℚ) (t : PrizeTier) (dr : ScratchDraws) : Option Outcome :=
  let winAmount := betAmount * t.Multiplier
  if t.Tier = "LOSE" ∨ t.Multiplier = 0 then
    (fixThird (symAt dr.d0) (symAt dr.d1) (symAt dr.d2) dr.reroll).map fun s2 =>
      { Symbols := (symAt dr.d0, symAt dr.d1, s2)
        WinAmount := winAmount
        Match := decide (winAmount > 0)
        Tier := t.Tier }
  else
    some { Symbols := (symAt dr.wsym, symAt dr.wsym, symAt dr.wsym)
           WinAmount := winAmount
           Match := decide (winAmount > 0)
           Tier := t.Tier }

/-- Go `scratch.GenerateWithMath`: weighted tier pick, then display
rendering. `none` corresponds to the Go `ok = false` when the tier pick
fails — `renderTier` only adds the draw-stream-exhaustion artifact. -/
def GenerateWithMath (betAmount : ℚ) (g : GameMath) (dr : ScratchDraws) : Option Outcome :=
  match g.PickTier dr.tierIdx with
  | none => none
  | some t => renderTier betAmount t dr

/-- The re-roll loop's postcondition: whatever third symbol it returns, the
three displayed symbols are not all equal. -/
theorem fixThird_not_all_eq {s0 s1 s2 s2' : String} {l : List (Fin 4)}
    (h : fixThird s0 s1 s2 l = some s2') : ¬(s0 = s1 ∧ s1 = s2') := by
  induction l generalizing s2 with
  | nil =>
    by_cases hc : s0 = s1 ∧ s1 = s2
    · simp [fixThird, if_pos hc] at h
    · simp only [fixThird, if_neg hc] at h
      cases h
      exact hc
  | cons d rest ih =>
    by_cases hc : s0 = s1 ∧ s1 = s2
    · simp only [fixThird, if_pos hc] at h
      exact ih h
    · simp only [fixThird, if_neg hc] at h
      cases h
      exact hc

/-! ## round: settled-results ledger (Go `round.Result` / `round.ResultsStore`) -/

/-- A settled round recorded for audit and idempotent replay
(Go `round.Result`; `SettledAt` kept as epoch milliseconds). -/
structure Result where
  RoundID : String
  BetID : String
  Outcome : String
  NextNumber : ℤ
  BalanceDelta : ℚ
  SettledAtMs : ℤ
  Symbols : List String
  WinAmount : ℚ
deriving DecidableEq, Repr

/-- The append-only results log: the JSON array in `round_results.json`. -/
abbrev ResultsLog := List Result

/-- Go `ResultsStore.GetByRoundID`: scan the array from the end, return the
first (i.e. most recent) entry with the given round id. A backwards scan
returning the first hit equals a forwards fold keeping the last hit. -/
def ResultsStore.GetByRoundID (l : ResultsLog) (roundID : String) : Option Result :=
  l.foldl (fun acc r => if r.RoundID = roundID then some r else acc) none

/-- Go `ResultsStore.Append`: read array, append, write back. `persistOk`
models whether the durable write succeeds; on failure the file (and hence
the log) is unchanged and an error is returned (the `Bool` component). -/
def ResultsStore.Append (l : ResultsLog) (r : Result) (persistOk : Bool) : ResultsLog × Bool :=
  if persistOk then (l ++ [r], true) else (l, false)

/-! ## server: scratch round handler (instant settlement) -/

/-- A wallet/operator call made by a handler (the external financial
effects: Bet debit, Win credit, Rollback of a bet). -/
inductive WalletOp where
  | bet (currency : String) (amount : ℚ)
  | win (currency : String) (amount : ℚ)
  | rollback
deriving DecidableEq, Repr

/-- Response of the scratch round/start handler: either a `writeError`
(identified by its error code) or the 200 `ScratchRoundStartResponse`
(replay responses carry an empty `Tier`, as in the Go struct). `divergent`
is the modelling artifact for an exhausted re-roll draw stream. -/
inductive ScratchRes where
  | err (code : String)
  | ok (roundID : String) (symbols : String × String × String)
      (winAmount balanceDelta : ℚ) (tier : String)
  | divergent
deriving DecidableEq, Repr

/-- The request body of scratch round/start after JSON decoding and the
`strings.TrimSpace` normalizations (fields modelled post-trim). -/
structure ScratchReq where
  SessionID : String
  Currency : String
  BetAmount : ℚ
  Amount : ℚ
  RoundID : String
  RoundId : String
deriving DecidableEq, Repr

/-- Copying `existing.Symbols` into the `[3]string` of the response:
missing entries stay at the zero value `""`. -/
def padSyms (l : List String) : String × String × String :=
  (l.getD 0 "", l.getD 1 "", l.getD 2 "")

/-- The bet normalization of the handler: `bet_amount`, falling back to the
legacy `amount` field when non-positive. -/
def effectiveBet (req : ScratchReq) : ℚ :=
  if req.BetAmount ≤ 0 then req.Amount else req.BetAmount

/-- The round-id normalization of the handler: `round_id`, else legacy
`roundId`, else a freshly generated UUID. -/
def effectiveRoundID (req : ScratchReq) (uuid : String) : String :=
  if req.RoundID = "" then (if req.RoundId = "" then uuid else req.RoundId) else req.RoundID

/-- The outcome-resolution step of `handleScratchRoundStart`: use the
registered math model when present; fall back to the legacy generator when
there is no model or `GenerateWithMath` reports `ok = false` (which happens
exactly when `PickTier` fails). -/
def resolveOutcome (gm : Option GameMath) (betAmount : ℚ) (dr : ScratchDraws) : Option Outcome :=
  match gm with
  | some m =>
    match m.PickTier dr.tierIdx with
    | some t => renderTier betAmount t dr
    | none => some (Generate betAmount dr.d0 dr.d1 dr.d2)
  | none => some (Generate betAmount dr.d0 dr.d1 dr.d2)

/-- Go `handleScratchRoundStart` (platform-client branch, `s.operator == nil`),
body already decoded. Explicit arguments replace the ambient effects:
`gm` is `s.gameMath.Get(gameID)`, `uuid` the generated round id used when the
request carries none, `dr` the CSPRNG draws, `betOk`/`winOk` the outcomes of
the platform Bet / Win calls, `persistOk` the durable-write outcome of
`results.Append`, `nowMs` the settlement timestamp. Returns the response,
the results log after the call, and the wallet calls performed. -/
def handleScratchRoundStart (results : ResultsLog) (gm : Option GameMath)
    (req : ScratchReq) (uuid : String) (dr : ScratchDraws)
    (betOk winOk persistOk : Bool) (nowMs : ℤ) :
    ScratchRes × ResultsLog × List WalletOp :=
  if req.SessionID = "" then (.err "TOKEN_REQUIRED", results, [])
  else if 512 < req.SessionID.length then (.err "INVALID_REQUEST", results, [])
  else
    let currency := if req.Currency = "" then "USD" else req.Currency
    let betAmount := effectiveBet req
    if betAmount ≤ 0 then (.err "INVALID_AMOUNT", results, [])
    else if 1000000 < betAmount then (.err "INVALID_AMOUNT", results, [])
    else
      let roundID := effectiveRoundID req uuid
      match ResultsStore.GetByRoundID results roundID with
      | some existing =>
        (.ok existing.RoundID (padSyms existing.Symbols) existing.WinAmount existing.BalanceDelta "",
         results, [])
      | none =>
        match resolveOutcome gm betAmount dr with
        | none => (.divergent, results, [])
        | some o =>
          if betOk = false then (.err "BET_FAILED", results, [])
          else if o.Match then
            if winOk = false then (.err "WIN_FAILED", results, [.bet currency betAmount, .rollback])
            else
              let delta := o.WinAmount - betAmount
              let rec0 : Result :=
                { RoundID := roundID, BetID := "", Outcome := "win", NextNumber := 0
                  BalanceDelta := delta, SettledAtMs := nowMs
                  Symbols := [o.Symbols.1, o.Symbols.2.1, o.Symbols.2.2]
                  WinAmount := o.WinAmount }
              (.ok roundID o.Symbols o.WinAmount delta o.Tier,
               (ResultsStore.Append results rec0 persistOk).1,
               [.bet currency betAmount, .win currency o.WinAmount])
          else
            let delta := -betAmount
            let rec0 : Result :=
              { RoundID := roundID, BetID := "", Outcome := "lose", NextNumber := 0
                BalanceDelta := delta, SettledAtMs := nowMs
                Symbols := [o.Symbols.1, o.Symbols.2.1, o.Symbols.2.2]
                WinAmount := o.WinAmount }
            (.ok roundID o.Symbols o.WinAmount delta o.Tier,
             (ResultsStore.Append results rec0 persistOk).1,
             [.bet currency betAmount])

/-! ## games/crash: multiplier schedule and round store -/

/-- Go `crash.StepSize`: 1% per step. -/
def StepSize : ℚ := 1 / 100

/-- Go `crash.CrashStepMin` / `crash.CrashStepMax`. -/
def CrashStepMin : ℤ := 10

def CrashStepMax : ℤ := 400

/-- Go `crash.Multiplier`: negative steps are clamped to 0, then
`1.0 + step * StepSize`. -/
def Multiplier (step : ℤ) : ℚ := 1 + ((if step < 0 then 0 else step) : ℤ) * StepSize

/-- Go `round.CrashRound` (`StartedAt` as epoch milliseconds). -/
structure CrashRound where
  RoundID : String
  BetID : String
  Currency : String
  Amount : ℚ
  CrashStep : ℤ
  StartedAtMs : ℤ
  Settled : Bool
deriving DecidableEq, Repr

/-- The in-memory working set of the Go `CrashStore` (`map[string]*CrashRound`),
as an association list with unique keys maintained by the operations. -/
abbrev CrashState := List (String × CrashRound)

/-- Go `CrashStore.Get`: map lookup under the store mutex. -/
def CrashStore.Get (st : CrashState) (roundID : String) : Option CrashRound :=
  match st with
  | [] => none
  | (k, v) :: rest => if k = roundID then some v else CrashStore.Get rest roundID

/-- Go `CrashStore.Create`: builds a fresh round and stores it under
`roundID` with plain map assignment — an existing entry is replaced. -/
def CrashStore.Create (st : CrashState) (roundID betID currency : String)
    (amount : ℚ) (crashStep : ℤ) (nowMs : ℤ) : CrashRound × CrashState :=
  let r : CrashRound :=
    { RoundID := roundID, BetID := betID, Currency := currency, Amount := amount
      CrashStep := crashStep, StartedAtMs := nowMs, Settled := false }
  (r, mapSet st roundID r)
where
  /-- `s.rounds[roundID] = r`: replace-or-insert. -/
  mapSet : CrashState → String → CrashRound → CrashState
    | [], k, v => [(k, v)]
    | (k', v') :: rest, k, v =>
      if k' = k then (k, v) :: rest else (k', v') :: mapSet rest k v

/-- Go `CrashStore.Settle`: if the round exists, set its `Settled` flag
(keys are unique, so marking every matching entry equals marking the one
map entry). -/
def CrashStore.Settle (st : CrashState) (roundID : String) : CrashState :=
  match st with
  | [] => []
  | (k, v) :: rest =>
    if k = roundID then (k, { v with Settled := true }) :: CrashStore.Settle rest roundID
    else (k, v) :: CrashStore.Settle rest roundID

/-- `currentStep` as computed in both crash handlers: elapsed milliseconds
divided by 100 (Go integer division), clamped at 0. -/
def currentStepAt (nowMs startedAtMs : ℤ) : ℤ :=
  let s := (nowMs - startedAtMs) / 100
  if s < 0 then 0 else s

/-! ## server: crash handlers -/

/-- Response of crash round/start. -/
inductive CrashStartRes where
  | err (code : String)
  | ok (roundID : String) (startedAtMs : ℤ)
deriving DecidableEq, Repr

/-- Go `handleCrashRoundStart`, body decoded, with the platform Bet call
outcome (`betOk`, returning `betID`) and the CSPRNG crash-step draw passed
explicitly. -/
def handleCrashRoundStart (st : CrashState) (token currency : String) (amount : ℚ)
    (roundIDField uuid betID : String) (crashStep : ℤ) (betOk : Bool) (nowMs : ℤ) :
    CrashStartRes × CrashState :=
  if token = "" then (.err "TOKEN_REQUIRED", st)
  else
    let currency' := if currency = "" then "USD" else currency
    if amount ≤ 0 then (.err "INVALID_AMOUNT", st)
    else
      let roundID := if roundIDField = "" then uuid else roundIDField
      if betOk = false then (.err "BET_FAILED", st)
      else
        let (cr, st') := CrashStore.Create st roundID betID currency' amount crashStep nowMs
        (.ok cr.RoundID cr.StartedAtMs, st')

/-- Response of crash round/cashout. -/
inductive CashoutRes where
  | err (code : String)
  | lost (roundID : String) (crashStep : ℤ) (balanceDelta : ℚ)
  | won (roundID : String) (winAmount balanceDelta : ℚ)
deriving DecidableEq, Repr

/-- The pure decision taken by `handleCrashCashout` from the round snapshot
read under the store mutex, the claimed step and the current time. -/
inductive CashDecision where
  | notFound
  | conflict
  | future
  | lose (crashStep : ℤ) (amount : ℚ)
  | winPath (step : ℤ) (amount : ℚ) (currency : String)
deriving DecidableEq, Repr

/-- Decision logic of `handleCrashCashout` after the `Get`: settled check,
future-step check against `currentStep`, clamp of a negative claimed step,
then the `step >= crashStep` crash comparison. -/
def cashDecision (snap : Option CrashRound) (step nowMs : ℤ) : CashDecision :=
  match snap with
  | none => .notFound
  | some cr =>
    if cr.Settled then .conflict
    else
      let currentStep := currentStepAt nowMs cr.StartedAtMs
      if currentStep < step then .future
      else
        let step' := if step < 0 then 0 else step
        if cr.CrashStep ≤ step' then .lose cr.CrashStep cr.Amount
        else .winPath step' cr.Amount cr.Currency

/-- Go `handleCrashCashout`, body decoded, with the platform Win call
outcome passed as `winOk`. Returns the response, the store after the call
and the wallet calls performed. On the losing branch the round is settled
and no wallet call is made (the stake was debited at round start); on the
winning branch the Win credit precedes the settle, and a failed Win leaves
the round open. -/
def handleCrashCashout (st : CrashState) (token roundID : String)
    (step nowMs : ℤ) (winOk : Bool) : CashoutRes × CrashState × List WalletOp :=
  if token = "" then (.err "TOKEN_REQUIRED", st, [])
  else if roundID = "" then (.err "INVALID_ROUND", st, [])
  else
    match cashDecision (CrashStore.Get st roundID) step nowMs with
    | .notFound => (.err "ROUND_NOT_FOUND", st, [])
    | .conflict => (.err "ROUND_SETTLED", st, [])
    | .future => (.err "INVALID_STEP", st, [])
    | .lose crashStep amount =>
      (.lost roundID crashStep (-amount), CrashStore.Settle st roundID, [])
    | .winPath step' amount currency =>
      let winAmount := amount * Multiplier step'
      if winOk = false then (.err "WIN_FAILED", st, [])
      else
        (.won roundID winAmount (winAmount - amount), CrashStore.Settle st roundID,
         [.win currency winAmount])

/-- Response of crash round/status: `ok` carries the JSON fields
(`multiplier`, `crashStep`, `crashMultiplier` are absent — `none` — when the
round is unknown or not crashed, matching the Go response maps). -/
inductive StatusRes where
  | err (code : String)
  | ok (roundID : String) (currentStep : ℤ) (multiplier : Option ℚ)
      (crashed : Bool) (crashStep : Option ℤ) (crashMultiplier : Option ℚ)
deriving DecidableEq, Repr

/-- Go `handleCrashStatus`: unknown rounds answer 200 with step 0 and
`crashed=false`; a crashed open round is settled by the query itself
(lazy loss). -/
def handleCrashStatus (st : CrashState) (roundID token : String) (nowMs : ℤ) :
    StatusRes × CrashState :=
  if roundID = "" ∨ token = "" then (.err "INVALID_REQUEST", st)
  else
    match CrashStore.Get st roundID with
    | none => (.ok roundID 0 none false none none, st)
    | some cr =>
      let currentStep := currentStepAt nowMs cr.StartedAtMs
      let crashed := cr.CrashStep ≤ currentStep
      let st' := if crashed then CrashStore.Settle st roundID else st
      if crashed then
        (.ok roundID currentStep (some (Multiplier currentStep)) true
          (some cr.CrashStep) (some (Multiplier cr.CrashStep)), st')
      else
        (.ok roundID currentStep (some (Multiplier currentStep)) false none none, st')

/-! ## Reference definitions taken from the specification wording (for the
refinement claim about `cashoutCrashRound`), to be compared with the code's
`handleCrashCashout`. -/

/-- Reference definition of `cashoutCrashRound(roundID, claimedStep)` as the
spec states it, verbatim: not-found, already-settled, future-step checks,
then loss iff `claimedStep ≥ crashStep`, else win with payout
`stake × (1 + claimedStep × 0.01)` — with no clamping of a negative
`claimedStep`. -/
def cashoutSpec (st : CrashState) (roundID : String) (claimedStep nowMs : ℤ) :
    CashoutRes × CrashState :=
  match CrashStore.Get st roundID with
  | none => (.err "ROUND_NOT_FOUND", st)
  | some cr =>
    if cr.Settled then (.err "ROUND_SETTLED", st)
    else if currentStepAt nowMs cr.StartedAtMs < claimedStep then (.err "INVALID_STEP", st)
    else if cr.CrashStep ≤ claimedStep then
      (.lost roundID cr.CrashStep (-cr.Amount), CrashStore.Settle st roundID)
    else
      let payout := cr.Amount * (1 + claimedStep * (1 / 100 : ℚ))
      (.won roundID payout (payout - cr.Amount), CrashStore.Settle st roundID)

/-- The reference definition amended by what the code actually does with a
negative claimed step: it is clamped to 0 before the crash comparison and
before the payout formula. -/
def cashoutSpecAmended (st : CrashState) (roundID : String) (claimedStep nowMs : ℤ) :
    CashoutRes × CrashState :=
  match CrashStore.Get st roundID with
  | none => (.err "ROUND_NOT_FOUND", st)
  | some cr =>
    if cr.Settled then (.err "ROUND_SETTLED", st)
    else if currentStepAt nowMs cr.StartedAtMs < claimedStep then (.err "INVALID_STEP", st)
    else if cr.CrashStep ≤ (if claimedStep < 0 then 0 else claimedStep) then
      (.lost roundID cr.CrashStep (-cr.Amount), CrashStore.Settle st roundID)
    else
      let payout := cr.Amount * (1 + ((if claimedStep < 0 then 0 else claimedStep) : ℤ) * (1 / 100 : ℚ))
      (.won roundID payout (payout - cr.Amount), CrashStore.Settle st roundID)

/-! ## Concurrency model for racing cashout calls

`handleCrashCashout` holds the store mutex only inside `CrashStore.Get`,
inside `CrashStore.Settle`, and the platform `Win` call happens between
them; so one handler execution decomposes into the atomic actions
"`Get` + pure decision", "`Win` wallet call", "`Settle`". Two handler
invocations interleave these actions arbitrarily. -/

/-- Progress of one in-flight cashout invocation. -/
inductive CashThread where
  /-- Has not yet executed its `CrashStore.Get`. -/
  | start
  /-- Decision computed from the snapshot; wallet call (if any) not yet made. -/
  | decided (d : CashDecision)
  /-- Win wallet call performed, `CrashStore.Settle` still pending. -/
  | winPaid (winAmount : ℚ) (amount : ℚ)
  /-- Handler returned. -/
  | done (res : CashoutRes)
deriving DecidableEq, Repr

/-- One atomic step of a cashout invocation (with non-empty token and round
id, and a succeeding Win call). Returns the new shared store, the new thread
state, and the wallet calls made by this step. -/
def cashStep (st : CrashState) (t : CashThread) (roundID : String) (step nowMs : ℤ) :
    CrashState × CashThread × List WalletOp :=
  match t with
  | .start => (st, .decided (cashDecision (CrashStore.Get st roundID) step nowMs), [])
  | .decided .notFound => (st, .done (.err "ROUND_NOT_FOUND"), [])
  | .decided .conflict => (st, .done (.err "ROUND_SETTLED"), [])
  | .decided .future => (st, .done (.err "INVALID_STEP"), [])
  | .decided (.lose crashStep amount) =>
    (CrashStore.Settle st roundID, .done (.lost roundID crashStep (-amount)), [])
  | .decided (.winPath step' amount currency) =>
    (st, .winPaid (amount * Multiplier step') amount, [.win currency (amount * Multiplier step')])
  | .winPaid winAmount amount =>
    (CrashStore.Settle st roundID, .done (.won roundID winAmount (winAmount - amount)), [])
  | .done res => (st, .done res, [])

/-- Interleaved execution of two cashout invocations on the same round,
driven by a schedule (`false` = first caller moves, `true` = second).
Returns the final store, both thread states and all wallet calls made. -/
def raceExec (sched : List Bool) (st : CrashState) (t1 t2 : CashThread)
    (roundID : String) (step nowMs : ℤ) :
    CrashState × CashThread × CashThread × List WalletOp :=
  match sched with
  | [] => (st, t1, t2, [])
  | b :: rest =>
    if b then
      let (st', t2', ops) := cashStep st t2 roundID step nowMs
      let (stf, t1f, t2f, opsRest) := raceExec rest st' t1 t2' roundID step nowMs
      (stf, t1f, t2f, ops ++ opsRest)
    else
      let (st', t1', ops) := cashStep st t1 roundID step nowMs
      let (stf, t1f, t2f, opsRest) := raceExec rest st' t1' t2 roundID step nowMs
      (stf, t1f, t2f, ops ++ opsRest)

/-! ## Store lemmas -/

/-- Settling a round flips exactly its `Settled` flag in the working set. -/
theorem CrashStore.get_settle (st : CrashState) (rid : String) :
    CrashStore.Get (CrashStore.Settle st rid) rid
      = (CrashStore.Get st rid).map (fun cr => { cr with Settled := true }) := by
  induction st with
  | nil => rfl
  | cons p rest ih =>
    obtain ⟨k, v⟩ := p
    by_cases hk : k = rid
    · subst hk
      simp [CrashStore.Settle, CrashStore.Get]
    · simp only [CrashStore.Settle, if_neg hk, CrashStore.Get, ih]

/-- Plain map assignment: the written key reads back the written round. -/
theorem CrashStore.get_mapSet (st : CrashState) (k : String) (v : CrashRound) :
    CrashStore.Get (CrashStore.Create.mapSet st k v) k = some v := by
  induction st with
  | nil => simp [CrashStore.Create.mapSet, CrashStore.Get]
  | cons p rest ih =>
    obtain ⟨k', v'⟩ := p
    by_cases hk : k' = k
    · simp [CrashStore.Create.mapSet, CrashStore.Get, hk]
    · simp [CrashStore.Create.mapSet, CrashStore.Get, hk, ih]

/-- Every value of the most-recent-wins fold carries the looked-up round
id, for any seed accumulator already satisfying it. -/
theorem foldl_lastMatch_roundID (rid : String) (l : ResultsLog) :
    ∀ (acc : Option Result) (r : Result), (∀ r', acc = some r' → r'.RoundID = rid) →
      l.foldl (fun acc r => if r.RoundID = rid then some r else acc) acc = some r →
      r.RoundID = rid := by
  induction l with
  | nil =>
    intro acc r hacc hfold
    exact hacc r hfold
  | cons hd tl ih =>
    intro acc r hacc hfold
    simp only [List.foldl] at hfold
    by_cases hhd : hd.RoundID = rid
    · refine ih _ r ?_ hfold
      intro r' hr'
      rw [if_pos hhd] at hr'
      cases hr'
      exact hhd
    · refine ih _ r ?_ hfold
      intro r' hr'
      rw [if_neg hhd] at hr'
      exact hacc r' hr'

/-- A hit of the most-recent-wins lookup carries the looked-up round id. -/
theorem ResultsStore.getByRoundID_roundID {l : ResultsLog} {rid : String} {r : Result}
    (h : ResultsStore.GetByRoundID l rid = some r) : r.RoundID = rid :=
  foldl_lastMatch_roundID rid l none r (by intro r' hr'; cases hr') h

/-- Appending a record for a round id makes it the most recent hit. -/
theorem ResultsStore.getByRoundID_append_self (l : ResultsLog) (r : Result) :
    ResultsStore.GetByRoundID (l ++ [r]) r.RoundID = some r := by
  unfold ResultsStore.GetByRoundID
  rw [List.foldl_append]
  simp

/-! ## Claim theorems -/

/-- C10: a round identifier unknown to the crash working set (including
rounds dropped from it after settlement) gets a 200 status response with
`currentStep = 0` and `crashed = false`, not a round-not-found error, and
the store is unchanged. -/
theorem crash_status_unknown_round_ok (st : CrashState) (roundID token : String) (nowMs : ℤ)
    (hrid : roundID ≠ "") (htok : token ≠ "")
    (habs : CrashStore.Get st roundID = none) :
    handleCrashStatus st roundID token nowMs = (.ok roundID 0 none false none none, st) := by
  unfold handleCrashStatus
  rw [if_neg (by rw [not_or]; exact ⟨hrid, htok⟩), habs]

theorem crash_status_unknown_round_ok_witness :
    handleCrashStatus [("r1", ⟨"r1", "b", "USD", 100, 10, 0, false⟩)] "zzz" "tok" 1500
      = (.ok "zzz" 0 none false none none, [("r1", ⟨"r1", "b", "USD", 100, 10, 0, false⟩)]) :=
  crash_status_unknown_round_ok _ "zzz" "tok" 1500 (by decide) (by decide) (by decide)

/-- C7: once an open crash round's elapsed step has reached its crash step,
a status query reports `crashed = true` together with the crash step and
crash multiplier and itself settles the round as a loss; any later cashout
call on that round id then answers a `ROUND_SETTLED` conflict, performing no
wallet call and no further state change — the round can no longer settle as
a win after the lazy loss. -/
theorem crash_status_lazy_loss_then_conflict (st : CrashState) (roundID token : String)
    (nowMs : ℤ) (cr : CrashRound)
    (hrid : roundID ≠ "") (htok : token ≠ "")
    (hget : CrashStore.Get st roundID = some cr)
    (_hopen : cr.Settled = false)
    (hcrash : cr.CrashStep ≤ currentStepAt nowMs cr.StartedAtMs) :
    handleCrashStatus st roundID token nowMs
      = (.ok roundID (currentStepAt nowMs cr.StartedAtMs)
          (some (Multiplier (currentStepAt nowMs cr.StartedAtMs))) true
          (some cr.CrashStep) (some (Multiplier cr.CrashStep)),
         CrashStore.Settle st roundID)
    ∧ CrashStore.Get (CrashStore.Settle st roundID) roundID = some { cr with Settled := true }
    ∧ ∀ (token' : String) (step' now' : ℤ) (winOk : Bool), token' ≠ "" →
        handleCrashCashout (CrashStore.Settle st roundID) token' roundID step' now' winOk
          = (.err "ROUND_SETTLED", CrashStore.Settle st roundID, []) := by
  have hget' : CrashStore.Get (CrashStore.Settle st roundID) roundID
      = some { cr with Settled := true } := by
    rw [CrashStore.get_settle, hget]
    rfl
  refine ⟨?_, hget', ?_⟩
  · unfold handleCrashStatus
    rw [if_neg (by rw [not_or]; exact ⟨hrid, htok⟩), hget]
    simp only [if_pos hcrash]
  · intro token' step' now' winOk htok'
    unfold handleCrashCashout
    rw [if_neg htok', if_neg hrid, hget']
    simp [cashDecision]

theorem crash_status_lazy_loss_then_conflict_witness :
    (handleCrashStatus [("r1", ⟨"r1", "b", "USD", 100, 10, 0, false⟩)] "r1" "tok" 1500
      = (.ok "r1" 15 (some (Multiplier 15)) true (some 10) (some (Multiplier 10)),
         CrashStore.Settle [("r1", ⟨"r1", "b", "USD", 100, 10, 0, false⟩)] "r1"))
    ∧ handleCrashCashout
        (CrashStore.Settle [("r1", ⟨"r1", "b", "USD", 100, 10, 0, false⟩)] "r1")
        "tok2" "r1" 3 1500 true
      = (.err "ROUND_SETTLED",
         CrashStore.Settle [("r1", ⟨"r1", "b", "USD", 100, 10, 0, false⟩)] "r1", []) := by
  have h := crash_status_lazy_loss_then_conflict
    [("r1", ⟨"r1", "b", "USD", 100, 10, 0, false⟩)] "r1" "tok" 1500
    ⟨"r1", "b", "USD", 100, 10, 0, false⟩
    (by decide) (by decide) (by decide) rfl (by decide)
  exact ⟨h.1, h.2.2 "tok2" 3 1500 true (by decide)⟩

/-- C2 (code bug): the settled check and the OPEN→SETTLED transition of
`handleCrashCashout` are separate critical sections, so two concurrent
cashout calls on the same open round can both observe it unsettled, both
credit the win, and both report a successful cash-out — here on the round
with stake 100 and crash step 10, both callers claiming step 5 at 500 ms,
under the schedule where both reads precede both settles. The spec requires
that exactly one caller settles and the other observes "already settled". -/
theorem crash_cashout_race_double_settlement :
    raceExec [false, true, false, false, true, true]
      [("r1", ⟨"r1", "b", "USD", 100, 10, 0, false⟩)] .start .start "r1" 5 500
      = ([("r1", ⟨"r1", "b", "USD", 100, 10, 0, true⟩)],
         .done (.won "r1" (100 * Multiplier 5) (100 * Multiplier 5 - 100)),
         .done (.won "r1" (100 * Multiplier 5) (100 * Multiplier 5 - 100)),
         [.win "USD" (100 * Multiplier 5), .win "USD" (100 * Multiplier 5)])
    ∧ (100 : ℚ) * Multiplier 5 = 105 ∧ (100 : ℚ) * Multiplier 5 - 100 = 5 := by
  refine ⟨rfl, ?_, ?_⟩ <;> norm_num [Multiplier, StepSize]

/-- C6 counterexample: starting a crash round under an already-used round id
does not fail — it succeeds and silently replaces the stored round (here the
stake changes from 100 to 50, the crash step from 10 to 20 and the start
time from 0 to 1000). -/
theorem crash_start_overwrite_cex :
    handleCrashRoundStart [("r1", ⟨"r1", "b1", "USD", 100, 10, 0, false⟩)]
        "tok" "USD" 50 "r1" "u2" "b2" 20 true 1000
      = (.ok "r1" 1000, [("r1", ⟨"r1", "b2", "USD", 50, 20, 1000, false⟩)])
    ∧ (handleCrashRoundStart [("r1", ⟨"r1", "b1", "USD", 100, 10, 0, false⟩)]
        "tok" "USD" 50 "r1" "u2" "b2" 20 true 1000).2
      ≠ [("r1", ⟨"r1", "b1", "USD", 100, 10, 0, false⟩)] := by decide

/-- C6 amended: for any round id — fresh or existing — `startCrashRound`
with a valid request and a successful bet succeeds and stores a freshly
created round under that id, replacing any existing entry (no error and no
preservation of the previous round). -/
theorem crash_start_overwrites (st : CrashState) (token currency : String) (amount : ℚ)
    (roundID uuid betID : String) (crashStep nowMs : ℤ)
    (htok : token ≠ "") (hamt : 0 < amount) (hrid : roundID ≠ "") :
    handleCrashRoundStart st token currency amount roundID uuid betID crashStep true nowMs
      = (.ok roundID nowMs,
         CrashStore.Create.mapSet st roundID
           ⟨roundID, betID, if currency = "" then "USD" else currency, amount, crashStep, nowMs, false⟩)
    ∧ CrashStore.Get
        (handleCrashRoundStart st token currency amount roundID uuid betID crashStep true nowMs).2
        roundID
      = some ⟨roundID, betID, if currency = "" then "USD" else currency,
              amount, crashStep, nowMs, false⟩ := by
  have h1 : handleCrashRoundStart st token currency amount roundID uuid betID crashStep true nowMs
      = (.ok roundID nowMs,
         CrashStore.Create.mapSet st roundID
           ⟨roundID, betID, if currency = "" then "USD" else currency, amount, crashStep, nowMs, false⟩) := by
    unfold handleCrashRoundStart CrashStore.Create
    rw [if_neg htok]
    simp [not_le.mpr hamt, hrid]
  refine ⟨h1, ?_⟩
  rw [h1]
  exact CrashStore.get_mapSet st roundID _

theorem crash_start_overwrites_witness :
    handleCrashRoundStart [("r1", ⟨"r1", "b1", "USD", 100, 10, 0, false⟩)]
        "tok" "" 50 "r1" "u2" "b2" 20 true 1000
      = (.ok "r1" 1000,
         CrashStore.Create.mapSet [("r1", ⟨"r1", "b1", "USD", 100, 10, 0, false⟩)] "r1"
           ⟨"r1", "b2", if ("" : String) = "" then "USD" else "", 50, 20, 1000, false⟩)
    ∧ CrashStore.Get
        (handleCrashRoundStart [("r1", ⟨"r1", "b1", "USD", 100, 10, 0, false⟩)]
          "tok" "" 50 "r1" "u2" "b2" 20 true 1000).2 "r1"
      = some ⟨"r1", "b2", if ("" : String) = "" then "USD" else "", 50, 20, 1000, false⟩ :=
  crash_start_overwrites [("r1", ⟨"r1", "b1", "USD", 100, 10, 0, false⟩)]
    "tok" "" 50 "r1" "u2" "b2" 20 1000 (by decide) (by decide) (by decide)

/-- C5 counterexample: `handleCrashCashout` does not equal the spec's
reference definition of `cashoutCrashRound`: at claimed step −1 on an open
round with stake 100, crash step 10 and elapsed step 0, the reference
definition pays 100 × (1 + (−1) × 0.01) = 99 while the code clamps the step
to 0 and pays 100 × 1.00 = 100. -/
theorem cashout_spec_mismatch_neg_step_cex :
    cashoutSpec [("r1", ⟨"r1", "b", "USD", 100, 10, 0, false⟩)] "r1" (-1) 0
      ≠ ((handleCrashCashout [("r1", ⟨"r1", "b", "USD", 100, 10, 0, false⟩)]
            "tok" "r1" (-1) 0 true).1,
         (handleCrashCashout [("r1", ⟨"r1", "b", "USD", 100, 10, 0, false⟩)]
            "tok" "r1" (-1) 0 true).2.1) := by
  intro heq
  have h1 : cashoutSpec [("r1", ⟨"r1", "b", "USD", 100, 10, 0, false⟩)] "r1" (-1) 0
      = (.won "r1" (100 * (1 + ((-1 : ℤ) : ℚ) * (1 / 100)))
           (100 * (1 + ((-1 : ℤ) : ℚ) * (1 / 100)) - 100),
         CrashStore.Settle [("r1", ⟨"r1", "b", "USD", 100, 10, 0, false⟩)] "r1") := rfl
  have h2 : ((handleCrashCashout [("r1", ⟨"r1", "b", "USD", 100, 10, 0, false⟩)]
            "tok" "r1" (-1) 0 true).1,
         (handleCrashCashout [("r1", ⟨"r1", "b", "USD", 100, 10, 0, false⟩)]
            "tok" "r1" (-1) 0 true).2.1)
      = (.won "r1" (100 * Multiplier 0) (100 * Multiplier 0 - 100),
         CrashStore.Settle [("r1", ⟨"r1", "b", "USD", 100, 10, 0, false⟩)] "r1") := rfl
  rw [h1, h2] at heq
  have h3 := congrArg Prod.fst heq
  simp only [CashoutRes.won.injEq] at h3
  have h4 := h3.2.1
  norm_num [Multiplier, StepSize] at h4

/-- C5 amended: `handleCrashCashout` (with a succeeding Win call) equals the
spec's reference definition amended in one place: a negative claimed step is
clamped to 0 before the crash comparison and before the payout formula
`stake × (1 + step × 0.01)`. -/
theorem cashout_matches_amended_spec (st : CrashState) (token roundID : String)
    (step nowMs : ℤ) (htok : token ≠ "") (hrid : roundID ≠ "") :
    ((handleCrashCashout st token roundID step nowMs true).1,
     (handleCrashCashout st token roundID step nowMs true).2.1)
      = cashoutSpecAmended st roundID step nowMs := by
  unfold handleCrashCashout cashoutSpecAmended cashDecision
  rw [if_neg htok, if_neg hrid]
  cases hget : CrashStore.Get st roundID with
  | none => simp
  | some cr =>
    by_cases hs : cr.Settled
    · simp [hs]
    · by_cases hfut : currentStepAt nowMs cr.StartedAtMs < step
      · simp [hs, hfut]
      · by_cases hcr : cr.CrashStep ≤ (if step < 0 then 0 else step)
        · simp [hs, hfut, hcr]
        · have hclamp : (if (if step < 0 then (0 : ℤ) else step) < 0 then (0 : ℤ)
              else (if step < 0 then 0 else step)) = (if step < 0 then 0 else step) := by
            split_ifs <;> omega
          simp [hs, hfut, hcr, Multiplier, StepSize, hclamp]

theorem cashout_matches_amended_spec_witness :
    ((handleCrashCashout [("r1", ⟨"r1", "b", "USD", 100, 10, 0, false⟩)]
        "tok" "r1" 5 500 true).1,
     (handleCrashCashout [("r1", ⟨"r1", "b", "USD", 100, 10, 0, false⟩)]
        "tok" "r1" 5 500 true).2.1)
      = cashoutSpecAmended [("r1", ⟨"r1", "b", "USD", 100, 10, 0, false⟩)] "r1" 5 500 :=
  cashout_matches_amended_spec [("r1", ⟨"r1", "b", "USD", 100, 10, 0, false⟩)]
    "tok" "r1" 5 500 (by decide) (by decide)

/-- C4 counterexample: with a failing durable write (`persistOk = false`)
the scratch handler still answers the settled outcome as a plain 200
success — no persistence error is surfaced — while the results log keeps no
record of the round (the error of `Append` is discarded by `_ =`). -/
theorem scratch_persist_failure_acknowledged_cex :
    handleScratchRoundStart [] none ⟨"sess", "", 10, 0, "rA", ""⟩ "uu"
        ⟨0, 0, 1, 2, [], 0⟩ true true false 77
      = (.ok "rA" ("cherry", "lemon", "star") 0 (-10) "", [], [.bet "USD" 10]) := by rfl

set_option maxHeartbeats 3200000 in
/-- C4 amended: a persistence failure in `results.Append` is silently
ignored: the handler returns the same response and makes the same wallet
calls as when the durable write succeeds, and on failure the results log is
left unchanged — the settlement is acknowledged to the caller but never
recorded. -/
theorem scratch_persist_failure_ignored (results : ResultsLog) (gm : Option GameMath)
    (req : ScratchReq) (uuid : String) (dr : ScratchDraws) (betOk winOk : Bool) (nowMs : ℤ) :
    ∃ (res : ScratchRes) (ops : List WalletOp),
      handleScratchRoundStart results gm req uuid dr betOk winOk false nowMs
        = (res, results, ops)
      ∧ ∃ log : ResultsLog,
          handleScratchRoundStart results gm req uuid dr betOk winOk true nowMs
            = (res, log, ops) := by
  simp only [handleScratchRoundStart]
  repeat' split
  all_goals exact ⟨_, _, rfl, _, rfl⟩

/-- C3 counterexample: with no registered math model for the game, a valid
scratch round request is answered by a normal (here losing) outcome drawn by
the legacy fallback generator — a 200 response with symbols and balance
delta, not a configuration error. -/
theorem scratch_missing_model_falls_back_cex :
    handleScratchRoundStart [] none ⟨"sess", "", 10, 0, "rA", ""⟩ "uu"
        ⟨0, 0, 1, 2, [], 0⟩ true true true 77
      = (.ok "rA" ("cherry", "lemon", "star") 0 (-10) "",
         [⟨"rA", "", "lose", 0, -10, 77, ["cherry", "lemon", "star"], 0⟩],
         [.bet "USD" 10]) := by rfl

/-- C3 amended: when the game has no registered math model, or its model is
unusable (`PickTier` returns `ok = false`), the scratch handler silently
falls back to the legacy default generator: its behaviour is exactly that
of a game with no model at all, and no configuration error is surfaced. -/
theorem scratch_missing_model_fallback (results : ResultsLog) (gm : Option GameMath)
    (req : ScratchReq) (uuid : String) (dr : ScratchDraws)
    (betOk winOk persistOk : Bool) (nowMs : ℤ)
    (hmodel : gm = none ∨ ∃ m, gm = some m ∧ m.PickTier dr.tierIdx = none) :
    handleScratchRoundStart results gm req uuid dr betOk winOk persistOk nowMs
      = handleScratchRoundStart results none req uuid dr betOk winOk persistOk nowMs := by
  rcases hmodel with h | ⟨m, rfl, hpick⟩
  · rw [h]
  · simp only [handleScratchRoundStart, resolveOutcome, hpick]

/-- C8: the weighted tier draw fails (`ok = false`) exactly when the model
is nil, its prize table is empty, or the total positive weight is ≤ 0; and
a successful draw from a valid position `idx ∈ [0, totalPosWeight)` always
returns a tier of the table with strictly positive weight — a tier of
weight ≤ 0 is never returned. -/
theorem pickTier_ok_iff_and_pos (g : Option GameMath) (idx : ℤ) :
    (pickTierOpt g idx = none ↔
      g = none ∨ ∃ m, g = some m ∧ (m.PrizeTable = [] ∨ totalPosWeight m ≤ 0))
    ∧ ∀ m t, g = some m → 0 ≤ idx → idx < totalPosWeight m →
        pickTierOpt g idx = some t → t ∈ m.PrizeTable ∧ 0 < t.Weight := by
  constructor
  · cases g with
    | none => simp [pickTierOpt]
    | some m =>
      simp only [pickTierOpt, GameMath.PickTier]
      by_cases hemp : m.PrizeTable = []
      · simp [hemp]
      · by_cases htot : totalPosWeight m ≤ 0
        · simp [hemp, htot]
        · rw [if_neg hemp, if_neg htot]
          constructor
          · intro h
            exfalso
            cases hpl : pickLoop idx 0 m.PrizeTable with
            | some t => rw [hpl] at h; exact Option.noConfusion h
            | none =>
              rw [hpl] at h
              exact hemp (List.getLast?_eq_none_iff.mp h)
          · rintro (h | ⟨m', hm', hbad⟩)
            · exact Option.noConfusion h
            · cases hm'
              rcases hbad with h | h
              · exact absurd h hemp
              · exact absurd h htot
  · intro m t hg h0 hlt hsome
    cases hg
    simp only [pickTierOpt, GameMath.PickTier] at hsome
    have htotpos : 0 < totalPosWeight m := lt_of_le_of_lt h0 hlt
    have hemp : m.PrizeTable ≠ [] := by
      intro he
      rw [totalPosWeight, he] at htotpos
      simp at htotpos
    rw [if_neg hemp, if_neg (not_le.mpr htotpos)] at hsome
    have hl : (pickLoop idx 0 m.PrizeTable).isSome :=
      pickLoop_isSome h0 (by simpa [totalPosWeight] using hlt)
    obtain ⟨t', ht'⟩ := Option.isSome_iff_exists.mp hl
    rw [ht'] at hsome
    simp only [Option.some.injEq] at hsome
    cases hsome
    exact pickLoop_mem_pos ht'

theorem pickTier_ok_iff_and_pos_witness :
    (⟨"T1", 2, 20⟩ : PrizeTier)
        ∈ (⟨1, "m", "", ⟨"match-3", 3⟩, "", "",
            [⟨"LOSE", 0, 70⟩, ⟨"T1", 2, 20⟩], none⟩ : GameMath).PrizeTable
    ∧ (0 : ℤ) < (⟨"T1", 2, 20⟩ : PrizeTier).Weight :=
  (pickTier_ok_iff_and_pos
      (some ⟨1, "m", "", ⟨"match-3", 3⟩, "", "", [⟨"LOSE", 0, 70⟩, ⟨"T1", 2, 20⟩], none⟩) 75).2
    _ ⟨"T1", 2, 20⟩ rfl (by decide) (by decide) (by decide)

/-- C9: whenever `GenerateWithMath` returns an outcome (`ok = true`), a
winning drawn tier (positive multiplier, not the LOSE bucket) renders three
equal symbols, and a losing drawn tier (label LOSE or multiplier 0) never
renders three equal symbols. -/
theorem generateWithMath_match_rendering (bet : ℚ) (g : GameMath) (dr : ScratchDraws)
    (t : PrizeTier) (o : Outcome)
    (ht : g.PickTier dr.tierIdx = some t)
    (ho : GenerateWithMath bet g dr = some o) :
    (0 < t.Multiplier ∧ t.Tier ≠ "LOSE" →
      o.Symbols.1 = o.Symbols.2.1 ∧ o.Symbols.2.1 = o.Symbols.2.2)
    ∧ ((t.Tier = "LOSE" ∨ t.Multiplier = 0) →
      ¬(o.Symbols.1 = o.Symbols.2.1 ∧ o.Symbols.2.1 = o.Symbols.2.2)) := by
  have hr : renderTier bet t dr = some o := by
    unfold GenerateWithMath at ho
    rw [ht] at ho
    exact ho
  simp only [renderTier] at hr
  by_cases hl : t.Tier = "LOSE" ∨ t.Multiplier = 0
  · rw [if_pos hl] at hr
    rcases Option.map_eq_some'.mp hr with ⟨s2', hfix, ho'⟩
    constructor
    · rintro ⟨hpos, hne⟩
      rcases hl with h | h
      · exact absurd h hne
      · rw [h] at hpos
        exact absurd hpos (lt_irrefl 0)
    · intro _
      intro hall
      apply fixThird_not_all_eq hfix
      rw [← ho'] at hall
      simpa using hall
  · rw [if_neg hl] at hr
    cases hr
    constructor
    · intro _
      exact ⟨rfl, rfl⟩
    · intro h
      exact absurd h hl

theorem generateWithMath_match_rendering_witness :
    (⟨("lemon", "lemon", "lemon"), 10 * 2, decide ((10 * 2 : ℚ) > 0), "T1"⟩ : Outcome).Symbols.1
        = (⟨("lemon", "lemon", "lemon"), 10 * 2, decide ((10 * 2 : ℚ) > 0), "T1"⟩ : Outcome).Symbols.2.1
    ∧ (⟨("lemon", "lemon", "lemon"), 10 * 2, decide ((10 * 2 : ℚ) > 0), "T1"⟩ : Outcome).Symbols.2.1
        = (⟨("lemon", "lemon", "lemon"), 10 * 2, decide ((10 * 2 : ℚ) > 0), "T1"⟩ : Outcome).Symbols.2.2 :=
  (generateWithMath_match_rendering 10
      ⟨1, "m", "", ⟨"match-3", 3⟩, "", "", [⟨"T1", 2, 100⟩], none⟩
      ⟨0, 0, 0, 0, [], 1⟩ ⟨"T1", 2, 100⟩
      ⟨("lemon", "lemon", "lemon"), 10 * 2, decide ((10 * 2 : ℚ) > 0), "T1"⟩
      (by decide) rfl).1 ⟨by decide, by decide⟩

theorem scratch_missing_model_fallback_witness :
    handleScratchRoundStart []
        (some ⟨1, "m", "", ⟨"match-3", 3⟩, "", "", [⟨"LOSE", 0, 0⟩], none⟩)
        ⟨"sess", "", 10, 0, "rA", ""⟩ "uu" ⟨0, 0, 1, 2, [], 0⟩ true true true 77
      = handleScratchRoundStart [] none
        ⟨"sess", "", 10, 0, "rA", ""⟩ "uu" ⟨0, 0, 1, 2, [], 0⟩ true true true 77 :=
  scratch_missing_model_fallback [] _ _ "uu" _ true true true 77
    (Or.inr ⟨_, rfl, by decide⟩)

/-- Replay path of the scratch handler: a valid request whose effective
round id already has a recorded result is answered with that record — same
round id, symbols, win amount and balance delta — with no draw consumed, no
wallet call and no state change, whatever the oracle and wallet flags. -/
theorem scratch_replay (results : ResultsLog) (gm : Option GameMath) (req : ScratchReq)
    (uuid : String) (dr : ScratchDraws) (betOk winOk persistOk : Bool) (nowMs : ℤ) (ex : Result)
    (hsess : req.SessionID ≠ "") (hlen : req.SessionID.length ≤ 512)
    (hbet : 0 < effectiveBet req) (hmax : effectiveBet req ≤ 1000000)
    (hrec : ResultsStore.GetByRoundID results (effectiveRoundID req uuid) = some ex) :
    handleScratchRoundStart results gm req uuid dr betOk winOk persistOk nowMs
      = (.ok ex.RoundID (padSyms ex.Symbols) ex.WinAmount ex.BalanceDelta "", results, []) := by
  simp only [handleScratchRoundStart, if_neg hsess, if_neg (not_lt.mpr hlen),
    if_neg (not_le.mpr hbet), if_neg (not_lt.mpr hmax), hrec]

/-- A successful (200, non-artifact) scratch settlement leaves, in the
returned results log, a record under the round id of the response whose
replayable fields are exactly the response's fields. -/
theorem scratch_records (results : ResultsLog) (gm : Option GameMath) (req : ScratchReq)
    (uuid : String) (dr : ScratchDraws) (betOk winOk : Bool) (nowMs : ℤ)
    (rid0 : String) (syms : String × String × String) (w d : ℚ) (tr : String)
    (results1 : ResultsLog) (ops : List WalletOp)
    (h : handleScratchRoundStart results gm req uuid dr betOk winOk true nowMs
        = (.ok rid0 syms w d tr, results1, ops)) :
    ∃ res : Result, ResultsStore.GetByRoundID results1 rid0 = some res
      ∧ res.RoundID = rid0 ∧ padSyms res.Symbols = syms
      ∧ res.WinAmount = w ∧ res.BalanceDelta = d := by
  by_cases h1 : req.SessionID = ""
  · simp [handleScratchRoundStart, h1] at h
  by_cases h2 : 512 < req.SessionID.length
  · simp [handleScratchRoundStart, h1, h2] at h
  by_cases h3 : effectiveBet req ≤ 0
  · simp [handleScratchRoundStart, h1, h2, h3] at h
  by_cases h4 : 1000000 < effectiveBet req
  · simp [handleScratchRoundStart, h1, h2, h3, h4] at h
  cases hget : ResultsStore.GetByRoundID results (effectiveRoundID req uuid) with
  | some ex =>
    simp only [handleScratchRoundStart, if_neg h1, if_neg h2, if_neg h3, if_neg h4,
      hget, Prod.mk.injEq, ScratchRes.ok.injEq] at h
    obtain ⟨⟨hrid, hsyms, hwin, hd, -⟩, hlog, -⟩ := h
    refine ⟨ex, ?_, hrid, hsyms, hwin, hd⟩
    rw [← hlog, ← hrid, ResultsStore.getByRoundID_roundID hget]
    exact hget
  | none =>
    cases hout : resolveOutcome gm (effectiveBet req) dr with
    | none =>
      simp [handleScratchRoundStart, h1, h2, h3, h4, hget, hout] at h
    | some o =>
      by_cases hb : betOk = false
      · simp [handleScratchRoundStart, h1, h2, h3, h4, hget, hout, hb] at h
      by_cases hm : o.Match = true
      · by_cases hw : winOk = false
        · simp [handleScratchRoundStart, h1, h2, h3, h4, hget, hout, hb, hm, hw] at h
        · simp [handleScratchRoundStart, h1, h2, h3, h4,
            hget, hout, hb, hm, hw, ResultsStore.Append] at h
          obtain ⟨⟨hrid, hsyms, hwin, hd, -⟩, hlog, -⟩ := h
          refine ⟨⟨effectiveRoundID req uuid, "", "win", 0, o.WinAmount - effectiveBet req,
            nowMs, [o.Symbols.1, o.Symbols.2.1, o.Symbols.2.2], o.WinAmount⟩,
            ?_, hrid, ?_, hwin, hd⟩
          · rw [← hlog, ← hrid]
            exact ResultsStore.getByRoundID_append_self results _
          · rw [← hsyms]
            rfl
      · simp [handleScratchRoundStart, h1, h2, h3, h4,
          hget, hout, hb, hm, ResultsStore.Append] at h
        obtain ⟨⟨hrid, hsyms, hwin, hd, -⟩, hlog, -⟩ := h
        refine ⟨⟨effectiveRoundID req uuid, "", "lose", 0, -effectiveBet req,
          nowMs, [o.Symbols.1, o.Symbols.2.1, o.Symbols.2.2], o.WinAmount⟩,
          ?_, hrid, ?_, hwin, hd⟩
        · rw [← hlog, ← hrid]
          exact ResultsStore.getByRoundID_append_self results _
        · rw [← hsyms]
          rfl

/-- C1: once a `settleInstantRound` call has completed with a 200 settlement
response and its result is durably recorded, any later call for the same
round id — with any stake, draw oracle, math model, wallet outcome or
persistence outcome — answers exactly the recorded result (same round id,
symbols, win amount and balance delta), leaves the log unchanged, performs
no wallet call, and is independent of the new draws. -/
theorem settleInstantRound_idempotent_replay
    (results : ResultsLog) (gm gm' : Option GameMath) (req req' : ScratchReq)
    (uuid uuid' : String) (dr dr' : ScratchDraws) (betOk winOk betOk' winOk' persistOk' : Bool)
    (nowMs nowMs' : ℤ) (rid0 : String) (syms : String × String × String) (w d : ℚ) (tr : String)
    (results1 : ResultsLog) (ops : List WalletOp)
    (hfirst : handleScratchRoundStart results gm req uuid dr betOk winOk true nowMs
        = (.ok rid0 syms w d tr, results1, ops))
    (hsess' : req'.SessionID ≠ "") (hlen' : req'.SessionID.length ≤ 512)
    (hbet' : 0 < effectiveBet req') (hmax' : effectiveBet req' ≤ 1000000)
    (hrid' : effectiveRoundID req' uuid' = rid0) :
    ∃ res : Result, ResultsStore.GetByRoundID results1 rid0 = some res
      ∧ handleScratchRoundStart results1 gm' req' uuid' dr' betOk' winOk' persistOk' nowMs'
          = (.ok rid0 syms w d "", results1, []) := by
  obtain ⟨res, hres, hresRid, hresSyms, hresWin, hresDelta⟩ :=
    scratch_records results gm req uuid dr betOk winOk nowMs rid0 syms w d tr results1 ops hfirst
  refine ⟨res, hres, ?_⟩
  rw [scratch_replay results1 gm' req' uuid' dr' betOk' winOk' persistOk' nowMs' res
    hsess' hlen' hbet' hmax' (by rw [hrid']; exact hres),
    hresRid, hresSyms, hresWin, hresDelta]

theorem settleInstantRound_idempotent_replay_witness :
    ∃ res : Result,
      ResultsStore.GetByRoundID
          [⟨"rA", "", "lose", 0, -10, 77, ["cherry", "lemon", "star"], 0⟩] "rA" = some res
      ∧ handleScratchRoundStart
          [⟨"rA", "", "lose", 0, -10, 77, ["cherry", "lemon", "star"], 0⟩]
          none ⟨"sess2", "", 25, 0, "rA", ""⟩ "uu2" ⟨0, 3, 3, 3, [], 0⟩ true true false 99
        = (.ok "rA" ("cherry", "lemon", "star") 0 (-10) "",
           [⟨"rA", "", "lose", 0, -10, 77, ["cherry", "lemon", "star"], 0⟩], []) :=
  settleInstantRound_idempotent_replay [] none none
    ⟨"sess", "", 10, 0, "rA", ""⟩ ⟨"sess2", "", 25, 0, "rA", ""⟩ "uu" "uu2"
    ⟨0, 0, 1, 2, [], 0⟩ ⟨0, 3, 3, 3, [], 0⟩ true true true true false 77 99
    "rA" ("cherry", "lemon", "star") 0 (-10) ""
    [⟨"rA", "", "lose", 0, -10, 77, ["cherry", "lemon", "star"], 0⟩] [.bet "USD" 10]
    rfl (by decide) (by decide) (by decide) (by decide) (by decide)

end RGS
